import Mathlib

/-!
Verification of the Study Tracker backend (`app.py`): a flat-file JSON user
store with registration and login.  The Python source is shallowly embedded:

* `Json` models Python/JSON values produced by `json.load` (floats and the
  non-standard `NaN`/`Infinity` literals are outside the model; the
  application only ever writes objects of strings).
* `serJson` models `json.dump(..., indent=2)` with its default
  `ensure_ascii=True` escaping; `parseVal`/`parseJson` model `json.load`
  (strict mode, surrogate-pair handling; lone surrogates are unrepresentable
  in Lean `Char` and are treated as parse failures).
* `FS` models the relevant filesystem state: the contents of `users.json`
  and of `users.json.corrupt`.  `save_users`'s temp-file plus `os.replace`
  collapses to one atomic update of the file contents.
* `register` and `login` model the two POST handlers, including Python
  truthiness (`x or ""`), dict semantics, and the `AttributeError` raised by
  `.strip()`/`.get` on non-string/non-dict data.
-/

namespace StudyTracker

/-- JSON values as produced by Python's `json` module (ints only; the app
never writes floats). -/
inductive Json where
  | null : Json
  | bool : Bool → Json
  | num : Int → Json
  | str : String → Json
  | arr : List Json → Json
  | obj : List (String × Json) → Json

/-- Python truthiness (`bool(x)`) on JSON values. -/
def pyTruthy : Json → Bool
  | .null => false
  | .bool b => b
  | .num n => decide (n ≠ 0)
  | .str s => decide (s ≠ "")
  | .arr [] => false
  | .arr (_ :: _) => true
  | .obj [] => false
  | .obj (_ :: _) => true

/-- Python `d.keys()` of an association-list dict. -/
def keys (kvs : List (String × Json)) : List String := kvs.map Prod.fst

/-- Python `d.get(k)`: first match (association lists built by `dictInsert` have
unique keys, so this is Python dict lookup). -/
def dictGet (kvs : List (String × Json)) (k : String) : Option Json :=
  match kvs with
  | [] => none
  | (k1, v) :: rest => if k1 = k then some v else dictGet rest k

/-- Assignment `d[k] = v` on a Python dict: update in place if the key exists, else
append. -/
def dictInsert (kvs : List (String × Json)) (k : String) (v : Json) :
    List (String × Json) :=
  if k ∈ keys kvs then kvs.map (fun kv => if kv.1 = k then (k, v) else kv)
  else kvs ++ [(k, v)]

/-- Building a Python dict from a pairs list (as `json.load` does for each
object): successive insertion, last value wins. -/
def dictify (l : List (String × Json)) : List (String × Json) :=
  l.foldl (fun d kv => dictInsert d kv.1 kv.2) []

/-! ### Serialization: `json.dump(users, f, indent=2)` (ensure_ascii) -/

def spaces : Nat → List Char
  | 0 => []
  | n + 1 => ' ' :: spaces n

def hexDigitCh (n : Nat) : Char :=
  match n with
  | 0 => '0' | 1 => '1' | 2 => '2' | 3 => '3' | 4 => '4'
  | 5 => '5' | 6 => '6' | 7 => '7' | 8 => '8' | 9 => '9'
  | 10 => 'a' | 11 => 'b' | 12 => 'c' | 13 => 'd' | 14 => 'e' | _ => 'f'

/-- Four lowercase hex digits, as CPython's `'\u{0:04x}'.format n`. -/
def hex4 (n : Nat) : List Char :=
  [hexDigitCh (n / 4096 % 16), hexDigitCh (n / 256 % 16),
   hexDigitCh (n / 16 % 16), hexDigitCh (n % 16)]

/-- CPython `json.encoder.py_encode_basestring_ascii`, one character:
short escapes from `ESCAPE_DCT`, printable ASCII literal, everything else
`\uXXXX` (surrogate pairs beyond the BMP). -/
def escChar (c : Char) : List Char :=
  if c = '"' then ['\\', '"']
  else if c = '\\' then ['\\', '\\']
  else if c = '\n' then ['\\', 'n']
  else if c = '\t' then ['\\', 't']
  else if c = '\r' then ['\\', 'r']
  else if c.toNat = 8 then ['\\', 'b']
  else if c.toNat = 12 then ['\\', 'f']
  else if 0x20 ≤ c.toNat ∧ c.toNat ≤ 0x7e then [c]
  else if c.toNat < 0x10000 then '\\' :: 'u' :: hex4 c.toNat
  else
    ('\\' :: 'u' :: hex4 (0xd800 + (c.toNat - 0x10000) / 0x400)) ++
      ('\\' :: 'u' :: hex4 (0xdc00 + (c.toNat - 0x10000) % 0x400))

def escString : List Char → List Char
  | [] => []
  | c :: rest => escChar c ++ escString rest

def natDigits (n : Nat) : List Char :=
  if n < 10 then [hexDigitCh n]
  else natDigits (n / 10) ++ [hexDigitCh (n % 10)]
decreasing_by exact Nat.div_lt_self (by omega) (by omega)

def intDigits (i : Int) : List Char :=
  if i < 0 then '-' :: natDigits i.natAbs else natDigits i.natAbs

mutual

/-- Model of `json.dump` with `indent=2` (so item separator `","` + newline, key
separator `": "`), at a given nesting level. -/
def serJson : Json → Nat → List Char
  | .null, _ => ['n', 'u', 'l', 'l']
  | .bool true, _ => ['t', 'r', 'u', 'e']
  | .bool false, _ => ['f', 'a', 'l', 's', 'e']
  | .num n, _ => intDigits n
  | .str s, _ => '"' :: (escString s.data ++ ['"'])
  | .arr [], _ => ['[', ']']
  | .arr (x :: xs), lvl =>
      '[' :: '\n' :: (spaces (2 * (lvl + 1)) ++ serJson x (lvl + 1) ++
        serArrItems xs (lvl + 1) ++ '\n' :: (spaces (2 * lvl) ++ [']']))
  | .obj [], _ => ['{', '}']
  | .obj (kv :: kvs), lvl =>
      '{' :: '\n' :: (spaces (2 * (lvl + 1)) ++ serMember kv (lvl + 1) ++
        serObjItems kvs (lvl + 1) ++ '\n' :: (spaces (2 * lvl) ++ ['}']))

def serMember : String × Json → Nat → List Char
  | (k, v), lvl => '"' :: (escString k.data ++ '"' :: ':' :: ' ' :: serJson v lvl)

def serArrItems : List Json → Nat → List Char
  | [], _ => []
  | x :: xs, lvl =>
      ',' :: '\n' :: (spaces (2 * lvl) ++ serJson x lvl ++ serArrItems xs lvl)

def serObjItems : List (String × Json) → Nat → List Char
  | [], _ => []
  | kv :: kvs, lvl =>
      ',' :: '\n' :: (spaces (2 * lvl) ++ serMember kv lvl ++ serObjItems kvs lvl)

end

/-- The exact text `json.dump(j, f, indent=2)` writes. -/
def dumpJson (j : Json) : String := String.mk (serJson j 0)

/-! ### Parsing: `json.load` (CPython scanner, strict mode).

Lone UTF-16 surrogates (which CPython's scanner would keep as surrogate
code points in a `str`) are unrepresentable in Lean `Char` and are treated
as parse failures, as are floats and the non-standard `NaN`/`Infinity`
literals; the application never writes any of these. -/

/-- JSON whitespace (`json.decoder.WHITESPACE`). -/
def isJsonWs (c : Char) : Bool := c = ' ' || c = '\t' || c = '\n' || c = '\r'

def skipWs : List Char → List Char
  | [] => []
  | c :: rest => if isJsonWs c then skipWs rest else c :: rest

def hexVal (c : Char) : Option Nat :=
  if '0' ≤ c ∧ c ≤ '9' then some (c.toNat - 48)
  else if 'a' ≤ c ∧ c ≤ 'f' then some (c.toNat - 87)
  else if 'A' ≤ c ∧ c ≤ 'F' then some (c.toNat - 55)
  else none

def hex4Val (a b c d : Char) : Option Nat :=
  match hexVal a, hexVal b, hexVal c, hexVal d with
  | some x, some y, some z, some w => some (x * 4096 + y * 256 + z * 16 + w)
  | _, _, _, _ => none

mutual

/-- Model of `json.decoder.py_scanstring` after the opening quote: returns the
decoded characters and the input after the closing quote. -/
def parseStrBody : List Char → Option (List Char × List Char)
  | [] => none
  | c :: rest =>
    if c = '"' then some ([], rest)
    else if c = '\\' then parseEsc rest
    else if c.toNat < 0x20 then none
    else (parseStrBody rest).map (fun p => (c :: p.1, p.2))

/-- A backslash escape (the input starts after the backslash). -/
def parseEsc : List Char → Option (List Char × List Char)
  | [] => none
  | e :: rest1 =>
    if e = '"' then (parseStrBody rest1).map (fun p => ('"' :: p.1, p.2))
    else if e = '\\' then (parseStrBody rest1).map (fun p => ('\\' :: p.1, p.2))
    else if e = '/' then (parseStrBody rest1).map (fun p => ('/' :: p.1, p.2))
    else if e = 'b' then (parseStrBody rest1).map (fun p => (Char.ofNat 8 :: p.1, p.2))
    else if e = 'f' then (parseStrBody rest1).map (fun p => (Char.ofNat 12 :: p.1, p.2))
    else if e = 'n' then (parseStrBody rest1).map (fun p => ('\n' :: p.1, p.2))
    else if e = 'r' then (parseStrBody rest1).map (fun p => ('\r' :: p.1, p.2))
    else if e = 't' then (parseStrBody rest1).map (fun p => ('\t' :: p.1, p.2))
    else if e = 'u' then parseU rest1
    else none

/-- A `\uXXXX` escape (the input starts after the `u`). -/
def parseU : List Char → Option (List Char × List Char)
  | a :: b :: c2 :: d :: rest2 =>
    (match hex4Val a b c2 d with
    | none => none
    | some n =>
      if 0xd800 ≤ n ∧ n ≤ 0xdbff then parseUPair n rest2
      else if 0xdc00 ≤ n ∧ n ≤ 0xdfff then none
      else (parseStrBody rest2).map (fun p => (Char.ofNat n :: p.1, p.2)))
  | _ => none

/-- The low half of a surrogate pair: `n` is the high surrogate already
read, the input starts after its four hex digits. -/
def parseUPair : Nat → List Char → Option (List Char × List Char)
  | n, s1 :: s2 :: e1 :: f1 :: g1 :: h1 :: rest3 =>
    if s1 = '\\' ∧ s2 = 'u' then
      (match hex4Val e1 f1 g1 h1 with
      | some m =>
        if 0xdc00 ≤ m ∧ m ≤ 0xdfff then
          (parseStrBody rest3).map (fun p =>
            (Char.ofNat (0x10000 + (n - 0xd800) * 0x400 + (m - 0xdc00)) :: p.1,
              p.2))
        else none
      | none => none)
    else none
  | _, _ => none

end

def takeDigits : List Char → List Char × List Char
  | [] => ([], [])
  | c :: rest =>
    if c.isDigit then
      let p := takeDigits rest
      (c :: p.1, p.2)
    else ([], c :: rest)

def digitsVal : List Char → Nat → Nat
  | [], acc => acc
  | c :: rest, acc => digitsVal rest (acc * 10 + (c.toNat - 48))

/-- The integer case of `json.decoder.NUMBER_RE` (`(-?(?:0|[1-9]\d*))`
followed by no fraction/exponent); a fraction or exponent would be a float,
outside this model. -/
def parseNumTail (neg : Bool) (cs : List Char) : Option (Json × List Char) :=
  match takeDigits cs with
  | ([], _) => none
  | (d :: ds, rest) =>
    let tok := if d = '0' then ([d], ds ++ rest) else (d :: ds, rest)
    let v : Int :=
      if neg then -(digitsVal tok.1 0 : Int) else (digitsVal tok.1 0 : Int)
    match tok.2 with
    | [] => some (.num v, [])
    | r :: rest1 =>
      if r = '.' ∨ r = 'e' ∨ r = 'E' then none
      else some (.num v, r :: rest1)

/-- Consume an expected literal tail (`rue` of `true`, ...). -/
def dropLit : List Char → List Char → Option (List Char)
  | [], cs => some cs
  | _ :: _, [] => none
  | l :: ls, c :: cs => if c = l then dropLit ls cs else none

mutual

/-- Model of the `json.scanner` `scan_once` on whitespace-skipped
input: one JSON value and the remaining input.  The fuel decreases on every
nested call; callers supply `input length + 1`, which the consumption of at
least one character per decrement makes sufficient for every accepted
input. -/
def parseValCore : Nat → List Char → Option (Json × List Char)
  | 0, _ => none
  | _ + 1, [] => none
  | fuel + 1, c :: rest =>
      if c = '{' then
        match skipWs rest with
        | [] => none
        | c2 :: rest2 =>
          if c2 = '}' then some (.obj [], rest2)
          else parseMembers fuel (c2 :: rest2) []
      else if c = '[' then
        match skipWs rest with
        | [] => none
        | c2 :: rest2 =>
          if c2 = ']' then some (.arr [], rest2)
          else parseElems fuel (c2 :: rest2) []
      else if c = '"' then
        (parseStrBody rest).map (fun p => (.str (String.mk p.1), p.2))
      else if c = 't' then (dropLit ['r', 'u', 'e'] rest).map (fun r => (.bool true, r))
      else if c = 'f' then (dropLit ['a', 'l', 's', 'e'] rest).map (fun r => (.bool false, r))
      else if c = 'n' then (dropLit ['u', 'l', 'l'] rest).map (fun r => (.null, r))
      else if c = '-' then parseNumTail true rest
      else if c.isDigit then parseNumTail false (c :: rest)
      else none

/-- Model of `json.decoder.JSONObject` from the first property name on (the input
starts at a non-whitespace character that must be `"`); the accumulated
pairs build a dict, last value winning, as `dict(pairs)` does. -/
def parseMembers : Nat → List Char → List (String × Json) →
    Option (Json × List Char)
  | 0, _, _ => none
  | fuel + 1, cs, acc =>
    match cs with
    | [] => none
    | c :: rest =>
      if c = '"' then
        match parseStrBody rest with
        | none => none
        | some (kcs, rest1) =>
          match skipWs rest1 with
          | [] => none
          | c1 :: rest2 =>
            if c1 = ':' then
              match parseValCore fuel (skipWs rest2) with
              | none => none
              | some (v, rest3) =>
                match skipWs rest3 with
                | [] => none
                | c2 :: rest4 =>
                  if c2 = ',' then
                    parseMembers fuel (skipWs rest4) (dictInsert acc (String.mk kcs) v)
                  else if c2 = '}' then
                    some (.obj (dictInsert acc (String.mk kcs) v), rest4)
                  else none
            else none
      else none

/-- Model of `json.decoder.JSONArray` from the first element on. -/
def parseElems : Nat → List Char → List Json → Option (Json × List Char)
  | 0, _, _ => none
  | fuel + 1, cs, acc =>
    match parseValCore fuel (skipWs cs) with
    | none => none
    | some (v, rest) =>
      match skipWs rest with
      | [] => none
      | c :: rest1 =>
        if c = ',' then parseElems fuel rest1 (acc ++ [v])
        else if c = ']' then some (.arr (acc ++ [v]), rest1)
        else none

end

/-- The scanner entry point with leading whitespace skipping, as every call site in
`json.decoder` performs before scanning a value. -/
def parseVal (fuel : Nat) (cs : List Char) : Option (Json × List Char) :=
  match fuel with
  | 0 => none
  | fuel + 1 => parseValCore (fuel + 1) (skipWs cs)

/-- Model of `json.loads`: one value, with only whitespace allowed after it. -/
def parseJson (s : String) : Option Json :=
  match parseVal (s.data.length + 1) s.data with
  | none => none
  | some (j, rest) => if skipWs rest = [] then some j else none

/-! ### The user store (`load_users` / `save_users`, app.py lines 26-52) -/

/-- The relevant filesystem state: the contents of `users.json` and of
`users.json.corrupt` (`none` = the file does not exist).  File contents are
modelled as already-decoded text. -/
structure FS where
  usersFile : Option String
  corruptFile : Option String
deriving Repr, DecidableEq

/-- Model of `load_users()`: missing file gives an empty dict; parse failure (`JSONDecodeError`)
→ rename to `users.json.corrupt` (a POSIX rename, which succeeds and
overwrites in this model) and return an empty dict; a parsed non-dict also
gives an empty dict;
otherwise the parsed dict.  Returns the table and the possibly-renamed
filesystem. -/
def load_users (fs : FS) : List (String × Json) × FS :=
  match fs.usersFile with
  | none => ([], fs)
  | some s =>
    match parseJson s with
    | some (.obj kvs) => (kvs, fs)
    | some _ => ([], fs)
    | none => ([], { usersFile := none, corruptFile := some s })

/-- Model of `save_users(users)`: `json.dump(users, tmp, indent=2)` then
`os.replace(tmp, USERS_FILE)` — one atomic update of the file contents. -/
def save_users (users : List (String × Json)) (fs : FS) : FS :=
  { fs with usersFile := some (dumpJson (.obj users)) }

/-! ### Credential validation (app.py lines 55-60) -/

/-- Validator `is_valid_email`: `isinstance(email, str) and "@" in email and
len(email) >= 5`. -/
def is_valid_email : Json → Bool
  | .str s => s.data.contains '@' && decide (5 ≤ s.length)
  | _ => false

/-- Validator `is_valid_password`: `isinstance(password, str) and len(password) >= 6`. -/
def is_valid_password : Json → Bool
  | .str s => decide (6 ≤ s.length)
  | _ => false

/-! ### Normalization: `.strip().lower()` -/

/-- Python `str.isspace` on the ASCII range (the full Unicode whitespace table is
elided; the claims only constrain normalization through `normalizeEmail`
itself). -/
def pyIsSpace (c : Char) : Bool :=
  c = ' ' || c = '\t' || c = '\n' || c = '\r' || c.toNat = 11 || c.toNat = 12

/-- Python `str.strip()`. -/
def pyStrip (s : String) : String :=
  String.mk (((s.data.dropWhile pyIsSpace).reverse.dropWhile pyIsSpace).reverse)

/-- Python `str.lower()`, ASCII case mapping (the full Unicode case table is
elided). -/
def pyLowerChar (c : Char) : Char :=
  if 'A' ≤ c ∧ c ≤ 'Z' then Char.ofNat (c.toNat + 32) else c

def pyLower (s : String) : String := String.mk (s.data.map pyLowerChar)

/-- Normalization `(... or "").strip().lower()` applied to an email field. -/
def normalizeEmail (s : String) : String := pyLower (pyStrip s)

/-! ### Password hashing.

Modelled from the spec: `werkzeug.security.generate_password_hash` /
`check_password_hash` are library code absent from this repository.  The
spec requires a salted one-way hash whose verifier accepts exactly the
original password; the model keeps the salted `method$salt$digest` layout
and uses an injective digest, which gives the same accept/reject behaviour.
-/

def generate_password_hash (salt p : String) : String :=
  String.mk (("scrypt-sim".data ++ '$' :: salt.data) ++ '$' :: p.data.reverse)

/-- Split at the first `'$'` (the part before it, the part after it). -/
def splitDollar : List Char → List Char × List Char
  | [] => ([], [])
  | c :: rest =>
    if c = '$' then ([], rest)
    else
      let p := splitDollar rest
      (c :: p.1, p.2)

def check_password_hash (h p : String) : Bool :=
  decide ((splitDollar h.data).1 = "scrypt-sim".data) &&
    decide ((splitDollar (splitDollar h.data).2).2 = p.data.reverse)

/-! ### HTTP request/response plumbing -/

/-- A JSON response: status code and `jsonify` payload. -/
structure Resp where
  status : Nat
  body : Json

/-- The Python exception a handler can raise on adversarial bodies
(`.strip()`/`.get` on a non-string/non-dict, Flask turns it into a 500). -/
inductive PyError where
  | attributeError : PyError
deriving Repr, DecidableEq

def mkMsg (m : String) : Json := .obj [("message", .str m)]

/-- The expression `request.get_json(silent=True) or` empty-dict, followed by use as a dict:
`none` models a missing/malformed body (`get_json` returns `None`). -/
def coerceBody : Option Json → Except PyError (List (String × Json))
  | none => .ok []
  | some j =>
    if pyTruthy j then
      match j with
      | .obj kvs => .ok kvs
      | _ => .error .attributeError
    else .ok []

/-- The expression `data.get(k) or ""`. -/
def pyOrEmptyStr (v : Option Json) : Json :=
  match v with
  | none => .str ""
  | some j => if pyTruthy j then j else .str ""

/-- The expression `(data.get("email") or "").strip().lower()` — raises on a truthy
non-string value. -/
def normalizeEmailField (data : List (String × Json)) : Except PyError String :=
  match pyOrEmptyStr (dictGet data "email") with
  | .str s => .ok (normalizeEmail s)
  | _ => .error .attributeError

/-- The string payload of a validated value (only used after
`is_valid_password` guarantees a string). -/
def jsonAsStr : Json → String
  | .str s => s
  | _ => ""

/-! ### `POST /api/register` (app.py lines 68-87) -/

/-- The outcome of `register`: the HTTP response, the final filesystem
state, and the trace of `save_users` calls (each entry the table passed). -/
structure RegisterOutcome where
  resp : Resp
  fs : FS
  saves : List (List (String × Json))

/-- The body of `register` after the email/password extraction (app.py
lines 74-87). -/
def registerValidated (email : String) (password : Json) (now salt : String)
    (fs : FS) : Except PyError RegisterOutcome :=
  if ¬ (is_valid_email (.str email) && is_valid_password password) then
    .ok ⟨⟨400, mkMsg "Invalid email or password (min length 6)."⟩, fs, []⟩
  else if email ∈ keys (load_users fs).1 then
    .ok ⟨⟨409, mkMsg "Email already exists"⟩, (load_users fs).2, []⟩
  else
    .ok ⟨⟨201, mkMsg "Account created successfully"⟩,
      save_users (dictInsert (load_users fs).1 email (.obj [("password_hash",
        .str (generate_password_hash salt (jsonAsStr password))),
        ("created_at", .str (now ++ "Z"))])) (load_users fs).2,
      [dictInsert (load_users fs).1 email (.obj [("password_hash",
        .str (generate_password_hash salt (jsonAsStr password))),
        ("created_at", .str (now ++ "Z"))])]⟩

/-- The `register` handler.  `now` is `datetime.utcnow().isoformat()` and
`salt` the randomness consumed by `generate_password_hash`, both passed in
as explicit inputs; an uncaught Python exception propagates as `.error`. -/
def register (body : Option Json) (now salt : String) (fs : FS) :
    Except PyError RegisterOutcome :=
  (coerceBody body).bind fun data =>
    (normalizeEmailField data).bind fun email =>
      registerValidated email (pyOrEmptyStr (dictGet data "password")) now salt fs

/-! ### `POST /api/login` (app.py lines 90-108) -/

structure LoginOutcome where
  resp : Resp
  fs : FS

def loginFail (fs : FS) : LoginOutcome :=
  ⟨⟨401, mkMsg "Invalid email or password"⟩, fs⟩

/-- The hash-verification tail of `login` (app.py lines 104-108): `user`
is the truthy record found for `email`, `fs1` the filesystem after the
load.  A non-dict record, a non-string stored hash or a non-string password
raises (`.get`/`werkzeug` on the wrong type). -/
def loginVerify (email : String) (password user : Json) (fs1 : FS) :
    Except PyError LoginOutcome :=
  match user with
  | .obj urec =>
    match dictGet urec "password_hash" with
    | none => .ok (loginFail fs1)
    | some sh =>
      if ¬ pyTruthy sh then .ok (loginFail fs1)
      else
        match sh, password with
        | .str h, .str p =>
          if ¬ check_password_hash h p then .ok (loginFail fs1)
          else
            .ok ⟨⟨200, .obj [("message", .str "Login successful"),
              ("user", .obj [("email", .str email),
                ("created_at", (dictGet urec "created_at").getD .null)])]⟩, fs1⟩
        | _, _ => .error .attributeError
  | _ => .error .attributeError

/-- The body of `login` after the email/password extraction (app.py lines
96-108). -/
def loginChecked (email : String) (password : Json) (fs : FS) :
    Except PyError LoginOutcome :=
  if email = "" ∨ ¬ pyTruthy password then
    .ok ⟨⟨400, mkMsg "Email and password required"⟩, fs⟩
  else
    match dictGet (load_users fs).1 email with
    | none => .ok (loginFail (load_users fs).2)
    | some user =>
      if ¬ pyTruthy user then .ok (loginFail (load_users fs).2)
      else loginVerify email password user (load_users fs).2

/-- The `login` handler. -/
def login (body : Option Json) (fs : FS) : Except PyError LoginOutcome :=
  (coerceBody body).bind fun data =>
    (normalizeEmailField data).bind fun email =>
      loginChecked email (pyOrEmptyStr (dictGet data "password")) fs

/-- A well-formed request body with an email field and a password field. -/
def mkBody (e p : String) : Option Json :=
  some (.obj [("email", .str e), ("password", .str p)])

/-! ### Basic lemmas about the embedded handlers -/

theorem except_bind_ok {α β : Type} (a : α) (f : α → Except PyError β) :
    (Except.ok a : Except PyError α).bind f = f a := rfl

theorem except_bind_error {α β : Type} (e : PyError) (f : α → Except PyError β) :
    (Except.error e : Except PyError α).bind f = .error e := rfl

theorem coerceBody_obj (kvs : List (String × Json)) :
    coerceBody (some (.obj kvs)) = .ok kvs := by
  cases kvs <;> simp [coerceBody, pyTruthy]

theorem pyOrEmptyStr_str (s : String) :
    pyOrEmptyStr (some (.str s)) = .str s := by
  by_cases h : s = "" <;> simp [pyOrEmptyStr, pyTruthy, h]

theorem normalizeEmailField_mkBody (e p : String) :
    normalizeEmailField [("email", .str e), ("password", .str p)] =
      .ok (normalizeEmail e) := by
  simp [normalizeEmailField, dictGet, pyOrEmptyStr_str]

theorem dictGet_mkBody_password (e p : String) :
    dictGet [("email", .str e), ("password", .str p)] "password" =
      some (.str p) := by
  simp [dictGet]

theorem load_users_no_file (cf : Option String) :
    load_users ⟨none, cf⟩ = ([], ⟨none, cf⟩) := rfl

theorem load_users_of_file (s : String) (cf : Option String) :
    load_users ⟨some s, cf⟩ =
      match parseJson s with
      | some (.obj kvs) => (kvs, ⟨some s, cf⟩)
      | some _ => ([], ⟨some s, cf⟩)
      | none => ([], ⟨none, some s⟩) := rfl

/-- If the duplicate check can find a key, the load parsed a JSON object,
so `load_users` did not touch the filesystem. -/
theorem load_users_state_of_mem (fs : FS) (k : String)
    (h : k ∈ keys (load_users fs).1) : (load_users fs).2 = fs := by
  rcases fs with ⟨uf, cf⟩
  cases uf with
  | none => rfl
  | some s =>
    rw [load_users_of_file] at h ⊢
    cases hp : parseJson s with
    | none => rw [hp] at h; simp [keys] at h
    | some j => cases j <;> rfl

/-- C5: `is_valid_email(s)` is true iff `s` is a string that contains `"@"`
and has length at least 5, and `is_valid_password(s)` is true iff `s` is a
string of length at least 6. -/
theorem c5_validator_spec (j : Json) :
    (is_valid_email j = true ↔
      ∃ s : String, j = .str s ∧ '@' ∈ s.data ∧ 5 ≤ s.length) ∧
    (is_valid_password j = true ↔ ∃ s : String, j = .str s ∧ 6 ≤ s.length) := by
  constructor
  · constructor
    · intro h
      cases j with
      | str s =>
        simp only [is_valid_email, Bool.and_eq_true, decide_eq_true_eq] at h
        exact ⟨s, rfl, List.elem_iff.mp h.1, h.2⟩
      | null => simp [is_valid_email] at h
      | bool b => simp [is_valid_email] at h
      | num n => simp [is_valid_email] at h
      | arr xs => simp [is_valid_email] at h
      | obj kvs => simp [is_valid_email] at h
    · rintro ⟨s, rfl, hat, hlen⟩
      simp [is_valid_email, List.elem_iff, hat, hlen]
  · constructor
    · intro h
      cases j with
      | str s =>
        simp only [is_valid_password, decide_eq_true_eq] at h
        exact ⟨s, rfl, h⟩
      | null => simp [is_valid_password] at h
      | bool b => simp [is_valid_password] at h
      | num n => simp [is_valid_password] at h
      | arr xs => simp [is_valid_password] at h
      | obj kvs => simp [is_valid_password] at h
    · rintro ⟨s, rfl, hlen⟩
      simp [is_valid_password, hlen]

/-- C8: if the backing file does not exist, `load_users` returns an empty
table (and does not signal an error or touch the filesystem). -/
theorem c8_load_no_file (fs : FS) (h : fs.usersFile = none) :
    load_users fs = ([], fs) := by
  simp [load_users, h]

theorem c8_load_no_file_witness :
    load_users ⟨none, none⟩ = ([], ⟨none, none⟩) :=
  c8_load_no_file ⟨none, none⟩ rfl

/-- C10: if the backing file holds well-formed JSON whose top-level value is
not an object, `load_users` returns an empty table and leaves the
filesystem untouched — no `.corrupt` rename. -/
theorem c10_load_nonobject (fs : FS) (s : String) (j : Json)
    (hfile : fs.usersFile = some s) (hparse : parseJson s = some j)
    (hnotobj : ∀ kvs, j ≠ .obj kvs) :
    load_users fs = ([], fs) := by
  obtain ⟨uf, cf⟩ := fs
  have huf : uf = some s := hfile
  subst huf
  rw [load_users_of_file, hparse]
  cases j with
  | obj kvs => exact absurd rfl (hnotobj kvs)
  | null => rfl
  | bool b => rfl
  | num n => rfl
  | str s1 => rfl
  | arr xs => rfl

theorem c10_load_nonobject_witness :
    load_users ⟨some "[1, 2]", none⟩ = ([], ⟨some "[1, 2]", none⟩) :=
  c10_load_nonobject ⟨some "[1, 2]", none⟩ "[1, 2]" (.arr [.num 1, .num 2])
    rfl rfl (fun _ h => Json.noConfusion h)

/-- C9: a missing/malformed request body (`get_json` returns `None`) or a
body without email/password fields is treated as empty-string credentials:
`register` answers 400 through the normal validation path, with no parse
error and no state change. -/
theorem c9_register_bad_body (body : Option Json) (now salt : String) (fs : FS)
    (h : body = none ∨ ∃ kvs, body = some (.obj kvs) ∧
      dictGet kvs "email" = none ∧ dictGet kvs "password" = none) :
    register body now salt fs =
      .ok ⟨⟨400, mkMsg "Invalid email or password (min length 6)."⟩, fs, []⟩ := by
  rcases h with h | ⟨kvs, hb, he, hp⟩
  · subst h; rfl
  · subst hb
    unfold register
    rw [coerceBody_obj, except_bind_ok]
    unfold normalizeEmailField
    rw [he, hp]
    rfl

theorem c9_register_bad_body_witness :
    register none "t" "ss" ⟨none, none⟩ =
      .ok ⟨⟨400, mkMsg "Invalid email or password (min length 6)."⟩,
        ⟨none, none⟩, []⟩ :=
  c9_register_bad_body none "t" "ss" ⟨none, none⟩ (Or.inl rfl)

/-- C6: `register` performs exactly one `save_users` call on the 201 path
and none on any rejection path, and whenever the response is not 201 the
filesystem (hence the stored table) is unchanged. -/
theorem c6_register_saves (body : Option Json) (now salt : String) (fs : FS)
    (out : RegisterOutcome) (h : register body now salt fs = .ok out) :
    (out.resp.status = 201 → out.saves.length = 1) ∧
    (out.resp.status ≠ 201 → out.saves = [] ∧ out.fs = fs) := by
  unfold register at h
  cases hc : coerceBody body with
  | error err => rw [hc, except_bind_error] at h; exact absurd h (by simp)
  | ok data =>
    rw [hc, except_bind_ok] at h
    cases hn : normalizeEmailField data with
    | error err => rw [hn, except_bind_error] at h; exact absurd h (by simp)
    | ok email =>
      rw [hn, except_bind_ok] at h
      unfold registerValidated at h
      split at h
      · rw [Except.ok.injEq] at h
        subst h
        exact ⟨by intro hs; exact absurd hs (by simp), fun _ => ⟨rfl, rfl⟩⟩
      · split at h
        · rw [Except.ok.injEq] at h
          subst h
          refine ⟨by intro hs; exact absurd hs (by simp), fun _ => ⟨rfl, ?_⟩⟩
          exact load_users_state_of_mem fs email (by assumption)
        · rw [Except.ok.injEq] at h
          subst h
          exact ⟨fun _ => rfl, by intro hs; exact absurd rfl hs⟩

/-- The concrete outcome of a successful registration on an empty store. -/
def regOutW : RegisterOutcome :=
  match register (mkBody "a@b.com" "secret1") "t" "ss" ⟨none, none⟩ with
  | .ok o => o
  | .error _ => ⟨⟨0, .null⟩, ⟨none, none⟩, []⟩

theorem c6_register_saves_witness :
    (regOutW.resp.status = 201 → regOutW.saves.length = 1) ∧
    (regOutW.resp.status ≠ 201 → regOutW.saves = [] ∧
      regOutW.fs = ⟨none, none⟩) :=
  c6_register_saves (mkBody "a@b.com" "secret1") "t" "ss" ⟨none, none⟩
    regOutW rfl

/-! ### Lemmas about the modelled password hash -/

theorem splitDollar_append (a b : List Char) (ha : '$' ∉ a) :
    splitDollar (a ++ '$' :: b) = (a, b) := by
  induction a with
  | nil => simp [splitDollar]
  | cons c cs ih =>
    have hc : ¬ c = '$' := fun h => ha (by simp [h])
    have hcs : '$' ∉ cs := fun h => ha (List.mem_cons_of_mem c h)
    simp only [List.cons_append, splitDollar, if_neg hc, List.append_eq, ih hcs]

theorem check_generate (salt p q : String) (hsalt : '$' ∉ salt.data) :
    check_password_hash (generate_password_hash salt p) q = decide (q = p) := by
  unfold check_password_hash generate_password_hash
  have hdata : (String.mk (("scrypt-sim".data ++ '$' :: salt.data) ++
      '$' :: p.data.reverse)).data =
      ("scrypt-sim".data ++ '$' :: salt.data) ++ '$' :: p.data.reverse := rfl
  have hsplit1 : splitDollar (("scrypt-sim".data ++ '$' :: salt.data) ++
      '$' :: p.data.reverse) =
      ("scrypt-sim".data, salt.data ++ '$' :: p.data.reverse) := by
    rw [List.append_assoc, List.cons_append]
    exact splitDollar_append ("scrypt-sim".data) _ (by decide)
  rw [hdata, hsplit1, splitDollar_append _ _ hsalt]
  have hiff : (p.data.reverse = q.data.reverse) ↔ (q = p) := by
    rw [List.reverse_inj]
    constructor
    · intro h
      cases q with
      | mk qd =>
        cases p with
        | mk pd => cases h; rfl
    · intro h; rw [h]
  simp [decide_eq_decide, hiff, eq_comm]

theorem generate_password_hash_ne_empty (salt p : String) :
    generate_password_hash salt p ≠ "" := by
  unfold generate_password_hash
  intro h
  have h2 : (("scrypt-sim".data ++ '$' :: salt.data) ++ '$' :: p.data.reverse)
      = ([] : List Char) := congrArg String.data h
  simp at h2

/-! ### Unfolding the handlers on a well-formed body -/

theorem login_mkBody (e p : String) (fs : FS) :
    login (mkBody e p) fs = loginChecked (normalizeEmail e) (.str p) fs := by
  unfold login mkBody
  rw [coerceBody_obj, except_bind_ok, normalizeEmailField_mkBody,
    except_bind_ok, dictGet_mkBody_password, pyOrEmptyStr_str]

theorem register_mkBody (e p now salt : String) (fs : FS) :
    register (mkBody e p) now salt fs =
      registerValidated (normalizeEmail e) (.str p) now salt fs := by
  unfold register mkBody
  rw [coerceBody_obj, except_bind_ok, normalizeEmailField_mkBody,
    except_bind_ok, dictGet_mkBody_password, pyOrEmptyStr_str]

theorem loginChecked_absent (email : String) (password : Json) (fs : FS)
    (hne : ¬ (email = "" ∨ ¬ pyTruthy password))
    (hget : dictGet (load_users fs).1 email = none) :
    loginChecked email password fs = .ok (loginFail (load_users fs).2) := by
  unfold loginChecked
  rw [if_neg hne, hget]

theorem loginChecked_record (email : String) (password : Json) (fs : FS)
    (kv : String × Json) (urest : List (String × Json))
    (hne : ¬ (email = "" ∨ ¬ pyTruthy password))
    (hget : dictGet (load_users fs).1 email = some (.obj (kv :: urest))) :
    loginChecked email password fs =
      loginVerify email password (.obj (kv :: urest)) (load_users fs).2 := by
  unfold loginChecked
  rw [if_neg hne, hget]
  simp [pyTruthy]

theorem loginVerify_record (email p h c : String) (fs1 : FS) (hne : h ≠ "") :
    loginVerify email (.str p)
      (.obj [("password_hash", .str h), ("created_at", .str c)]) fs1 =
      (if ¬ check_password_hash h p then .ok (loginFail fs1)
       else .ok ⟨⟨200, .obj [("message", .str "Login successful"),
         ("user", .obj [("email", .str email), ("created_at", .str c)])]⟩,
         fs1⟩) := by
  unfold loginVerify
  simp [dictGet, pyTruthy, hne]

/-- C4: for non-empty credentials, a login with an email that is not in the
table and a login with a registered email but a wrong password produce the
very same response value — 401 with message "Invalid email or password" —
so the two failures are indistinguishable to the client. -/
theorem c4_login_401_indistinguishable (fs : FS)
    (e1 p1 e2 p2 c salt pw : String)
    (he1 : normalizeEmail e1 ≠ "") (hp1 : p1 ≠ "")
    (he2 : normalizeEmail e2 ≠ "") (hp2 : p2 ≠ "")
    (habsent : dictGet (load_users fs).1 (normalizeEmail e1) = none)
    (hrec : dictGet (load_users fs).1 (normalizeEmail e2) =
      some (.obj [("password_hash", .str (generate_password_hash salt pw)),
        ("created_at", .str c)]))
    (hsalt : '$' ∉ salt.data) (hwrong : p2 ≠ pw) :
    login (mkBody e1 p1) fs =
      .ok ⟨⟨401, mkMsg "Invalid email or password"⟩, (load_users fs).2⟩ ∧
    login (mkBody e2 p2) fs =
      .ok ⟨⟨401, mkMsg "Invalid email or password"⟩, (load_users fs).2⟩ := by
  constructor
  · rw [login_mkBody,
      loginChecked_absent _ _ _ (by simp [pyTruthy, he1, hp1]) habsent]
    rfl
  · rw [login_mkBody,
      loginChecked_record _ _ _ _ _ (by simp [pyTruthy, he2, hp2]) hrec,
      loginVerify_record _ _ _ _ _ (generate_password_hash_ne_empty salt pw),
      check_generate _ _ _ hsalt]
    simp [hwrong]
    rfl

/-- The store of the login witnesses: one user `x@y.com` registered with
password `hunter2`. -/
def fsW : FS :=
  save_users (dictInsert [] "x@y.com"
    (.obj [("password_hash", .str (generate_password_hash "ss" "hunter2")),
      ("created_at", .str "t")])) ⟨none, none⟩

theorem c4_login_401_indistinguishable_witness :
    login (mkBody "a@b.com" "p1word") fsW =
      .ok ⟨⟨401, mkMsg "Invalid email or password"⟩, (load_users fsW).2⟩ ∧
    login (mkBody "x@y.com" "wrongpw") fsW =
      .ok ⟨⟨401, mkMsg "Invalid email or password"⟩, (load_users fsW).2⟩ :=
  c4_login_401_indistinguishable fsW "a@b.com" "p1word" "x@y.com" "wrongpw"
    "t" "ss" "hunter2" (by decide) (by decide) (by decide) (by decide)
    rfl rfl (by decide) (by decide)

/-- C7: a successful login answers 200 with exactly the normalized email
and the record's `created_at` as user info; in particular the stored
`password_hash` appears nowhere in the response. -/
theorem c7_login_success_response (fs : FS) (e p c salt : String)
    (hne : normalizeEmail e ≠ "") (hp : p ≠ "")
    (hrec : dictGet (load_users fs).1 (normalizeEmail e) =
      some (.obj [("password_hash", .str (generate_password_hash salt p)),
        ("created_at", .str c)]))
    (hsalt : '$' ∉ salt.data) :
    login (mkBody e p) fs =
      .ok ⟨⟨200, .obj [("message", .str "Login successful"),
        ("user", .obj [("email", .str (normalizeEmail e)),
          ("created_at", .str c)])]⟩, (load_users fs).2⟩ := by
  rw [login_mkBody,
    loginChecked_record _ _ _ _ _ (by simp [pyTruthy, hne, hp]) hrec,
    loginVerify_record _ _ _ _ _ (generate_password_hash_ne_empty salt p),
    check_generate _ _ _ hsalt]
  simp

theorem c7_login_success_response_witness :
    login (mkBody "x@y.com" "hunter2") fsW =
      .ok ⟨⟨200, .obj [("message", .str "Login successful"),
        ("user", .obj [("email", .str (normalizeEmail "x@y.com")),
          ("created_at", .str "t")])]⟩, (load_users fsW).2⟩ :=
  c7_login_success_response fsW "x@y.com" "hunter2" "t" "ss"
    (by decide) (by decide) rfl (by decide)

/-! ### Round trip: the parser recovers what the serializer wrote -/

theorem skipWs_cons_not (c : Char) (cs : List Char) (h : isJsonWs c = false) :
    skipWs (c :: cs) = c :: cs := by
  simp [skipWs, h]

theorem skipWs_spaces (n : Nat) (cs : List Char) :
    skipWs (spaces n ++ cs) = skipWs cs := by
  induction n with
  | zero => rfl
  | succ k ih => simp [spaces, skipWs, isJsonWs, ih]

theorem skipWs_nl (cs : List Char) : skipWs ('\n' :: cs) = skipWs cs := by
  simp [skipWs, isJsonWs]

theorem hexVal_hexDigitCh (d : Nat) (hd : d < 16) :
    hexVal (hexDigitCh d) = some d := by
  interval_cases d <;> rfl

theorem hex4Val_hex4 (n : Nat) (hn : n < 65536) :
    hex4Val (hexDigitCh (n / 4096 % 16)) (hexDigitCh (n / 256 % 16))
      (hexDigitCh (n / 16 % 16)) (hexDigitCh (n % 16)) = some n := by
  have h1 := hexVal_hexDigitCh (n / 4096 % 16) (Nat.mod_lt _ (by omega))
  have h2 := hexVal_hexDigitCh (n / 256 % 16) (Nat.mod_lt _ (by omega))
  have h3 := hexVal_hexDigitCh (n / 16 % 16) (Nat.mod_lt _ (by omega))
  have h4 := hexVal_hexDigitCh (n % 16) (Nat.mod_lt _ (by omega))
  simp only [hex4Val, h1, h2, h3, h4]
  congr 1
  omega

theorem hex4_append (n : Nat) (tail : List Char) :
    hex4 n ++ tail = hexDigitCh (n / 4096 % 16) :: hexDigitCh (n / 256 % 16) ::
      hexDigitCh (n / 16 % 16) :: hexDigitCh (n % 16) :: tail := rfl

/-- The scalar-value range of a Lean `Char` (no surrogates). -/
theorem char_toNat_valid (c : Char) :
    c.toNat < 0xd800 ∨ (0xdfff < c.toNat ∧ c.toNat < 0x110000) := c.valid

theorem parseStrBody_backslash (l : List Char) :
    parseStrBody ('\\' :: l) = parseEsc l := rfl

theorem parseEsc_u (l : List Char) : parseEsc ('u' :: l) = parseU l := rfl

theorem parseU_cons (a b c2 d : Char) (rest2 : List Char) :
    parseU (a :: b :: c2 :: d :: rest2) =
      (match hex4Val a b c2 d with
      | none => none
      | some n =>
        if 0xd800 ≤ n ∧ n ≤ 0xdbff then parseUPair n rest2
        else if 0xdc00 ≤ n ∧ n ≤ 0xdfff then none
        else (parseStrBody rest2).map (fun p => (Char.ofNat n :: p.1, p.2))) := rfl

theorem parseU_hex (n : Nat) (hn : n < 65536) (rest2 : List Char) :
    parseU (hexDigitCh (n / 4096 % 16) :: hexDigitCh (n / 256 % 16) ::
      hexDigitCh (n / 16 % 16) :: hexDigitCh (n % 16) :: rest2) =
      (if 0xd800 ≤ n ∧ n ≤ 0xdbff then parseUPair n rest2
       else if 0xdc00 ≤ n ∧ n ≤ 0xdfff then none
       else (parseStrBody rest2).map (fun p => (Char.ofNat n :: p.1, p.2))) := by
  rw [parseU_cons, hex4Val_hex4 n hn]

theorem parseUPair_cons (n : Nat) (s1 s2 e1 f1 g1 h1 : Char) (rest3 : List Char) :
    parseUPair n (s1 :: s2 :: e1 :: f1 :: g1 :: h1 :: rest3) =
      (if s1 = '\\' ∧ s2 = 'u' then
        (match hex4Val e1 f1 g1 h1 with
        | some m =>
          if 0xdc00 ≤ m ∧ m ≤ 0xdfff then
            (parseStrBody rest3).map (fun p =>
              (Char.ofNat (0x10000 + (n - 0xd800) * 0x400 + (m - 0xdc00)) :: p.1,
                p.2))
          else none
        | none => none)
      else none) := rfl

theorem parseUPair_hex (n m : Nat) (hm : m < 65536) (rest3 : List Char) :
    parseUPair n ('\\' :: 'u' :: hexDigitCh (m / 4096 % 16) ::
      hexDigitCh (m / 256 % 16) :: hexDigitCh (m / 16 % 16) ::
      hexDigitCh (m % 16) :: rest3) =
      (if 0xdc00 ≤ m ∧ m ≤ 0xdfff then
        (parseStrBody rest3).map (fun p =>
          (Char.ofNat (0x10000 + (n - 0xd800) * 0x400 + (m - 0xdc00)) :: p.1, p.2))
       else none) := by
  rw [parseUPair_cons, if_pos (⟨rfl, rfl⟩ : ('\\' : Char) = '\\' ∧ ('u' : Char) = 'u'),
    hex4Val_hex4 m hm]

theorem parseStrBody_cons_lit (c : Char) (cs : List Char)
    (h1 : ¬ c = '"') (h2 : ¬ c = '\\') (h3 : ¬ c.toNat < 0x20) :
    parseStrBody (c :: cs) = (parseStrBody cs).map (fun p => (c :: p.1, p.2)) := by
  conv_lhs => simp only [parseStrBody]
  rw [if_neg h1, if_neg h2, if_neg h3]

/-- One escaped character parses back to exactly that character. -/
theorem parseStrBody_escChar (c : Char) (tail : List Char) :
    parseStrBody (escChar c ++ tail) =
      (parseStrBody tail).map (fun p => (c :: p.1, p.2)) := by
  unfold escChar
  by_cases h1 : c = '"'
  · subst h1; rw [if_pos rfl]; rfl
  rw [if_neg h1]
  by_cases h2 : c = '\\'
  · subst h2; rw [if_pos rfl]; rfl
  rw [if_neg h2]
  by_cases h3 : c = '\n'
  · subst h3; rw [if_pos rfl]; rfl
  rw [if_neg h3]
  by_cases h4 : c = '\t'
  · subst h4; rw [if_pos rfl]; rfl
  rw [if_neg h4]
  by_cases h5 : c = '\r'
  · subst h5; rw [if_pos rfl]; rfl
  rw [if_neg h5]
  by_cases h6 : c.toNat = 8
  · rw [if_pos h6]
    have hstep : parseStrBody (['\\', 'b'] ++ tail) =
        (parseStrBody tail).map (fun p => (Char.ofNat 8 :: p.1, p.2)) := rfl
    rw [hstep, ← h6, Char.ofNat_toNat]
  rw [if_neg h6]
  by_cases h7 : c.toNat = 12
  · rw [if_pos h7]
    have hstep : parseStrBody (['\\', 'f'] ++ tail) =
        (parseStrBody tail).map (fun p => (Char.ofNat 12 :: p.1, p.2)) := rfl
    rw [hstep, ← h7, Char.ofNat_toNat]
  rw [if_neg h7]
  by_cases h8 : 0x20 ≤ c.toNat ∧ c.toNat ≤ 0x7e
  · rw [if_pos h8]
    show parseStrBody (c :: tail) = _
    rw [parseStrBody_cons_lit c tail h1 h2 (by omega)]
  rw [if_neg h8]
  have hv := char_toNat_valid c
  by_cases h9 : c.toNat < 0x10000
  · rw [if_pos h9]
    show parseStrBody ('\\' :: 'u' :: (hex4 c.toNat ++ tail)) = _
    rw [parseStrBody_backslash, parseEsc_u, hex4_append, parseU_hex c.toNat h9]
    rw [if_neg (by omega), if_neg (by omega), Char.ofNat_toNat]
  rw [if_neg h9]
  have hm : (c.toNat - 0x10000) % 0x400 < 0x400 :=
    Nat.mod_lt _ (by omega)
  have hd : (c.toNat - 0x10000) / 0x400 < 0x400 :=
    Nat.div_lt_of_lt_mul (by omega)
  have hhi : 0xd800 + (c.toNat - 0x10000) / 0x400 < 65536 := by omega
  have hlo : 0xdc00 + (c.toNat - 0x10000) % 0x400 < 65536 := by omega
  have hc1 : 0xd800 ≤ 0xd800 + (c.toNat - 0x10000) / 0x400 ∧
      0xd800 + (c.toNat - 0x10000) / 0x400 ≤ 0xdbff := by omega
  have hc2 : 0xdc00 ≤ 0xdc00 + (c.toNat - 0x10000) % 0x400 ∧
      0xdc00 + (c.toNat - 0x10000) % 0x400 ≤ 0xdfff := by omega
  have harg : 0x10000 + ((0xd800 + (c.toNat - 0x10000) / 0x400) - 0xd800) * 0x400 +
      ((0xdc00 + (c.toNat - 0x10000) % 0x400) - 0xdc00) = c.toNat := by omega
  simp only [List.cons_append, List.append_assoc]
  rw [parseStrBody_backslash, parseEsc_u, hex4_append, hex4_append,
    parseU_hex _ hhi, if_pos hc1, parseUPair_hex _ _ hlo, if_pos hc2,
    harg, Char.ofNat_toNat]

/-- The serialized body of a string parses back to exactly that string. -/
theorem parseStrBody_escString (cs rest : List Char) :
    parseStrBody (escString cs ++ '"' :: rest) = some (cs, rest) := by
  induction cs with
  | nil => rfl
  | cons c cs ih =>
    show parseStrBody ((escChar c ++ escString cs) ++ '"' :: rest) = _
    rw [List.append_assoc, parseStrBody_escChar, ih]
    rfl

/-! ### The table shape the application writes, and its round trip -/

/-- A stored user record, as `register` writes it. -/
structure UserRecord where
  password_hash : String
  created_at : String

def recJson (r : UserRecord) : Json :=
  .obj [("password_hash", .str r.password_hash), ("created_at", .str r.created_at)]

/-- A user table of string-valued records, as a JSON dict. -/
def tableJson (t : List (String × UserRecord)) : List (String × Json) :=
  t.map (fun kv => (kv.1, recJson kv.2))

theorem serMember_eq (k : String) (v : Json) (lvl : Nat) :
    serMember (k, v) lvl =
      '"' :: (escString k.data ++ ('"' :: ':' :: ' ' :: serJson v lvl)) := rfl

theorem serObjItems_cons (kv : String × Json) (kvs : List (String × Json))
    (lvl : Nat) :
    serObjItems (kv :: kvs) lvl =
      ',' :: '\n' :: (spaces (2 * lvl) ++ serMember kv lvl ++ serObjItems kvs lvl) := rfl

theorem serObjItems_nil (lvl : Nat) : serObjItems [] lvl = [] := rfl

theorem serJson_obj_cons (kv : String × Json) (kvs : List (String × Json))
    (lvl : Nat) :
    serJson (.obj (kv :: kvs)) lvl =
      '{' :: '\n' :: (spaces (2 * (lvl + 1)) ++ serMember kv (lvl + 1) ++
        serObjItems kvs (lvl + 1) ++ '\n' :: (spaces (2 * lvl) ++ ['}'])) := rfl

theorem serJson_str (s : String) (lvl : Nat) :
    serJson (.str s) lvl = '"' :: (escString s.data ++ ['"']) := rfl

theorem skipWs_indent (n : Nat) (X : List Char) :
    skipWs ('\n' :: (spaces n ++ X)) = skipWs X := by
  rw [skipWs_nl, skipWs_spaces]

theorem skipWs_quote (X : List Char) : skipWs ('"' :: X) = '"' :: X := rfl

theorem skipWs_lbrace (X : List Char) : skipWs ('{' :: X) = '{' :: X := rfl

theorem skipWs_rbrace (X : List Char) : skipWs ('}' :: X) = '}' :: X := rfl

theorem skipWs_sp_lbrace (X : List Char) :
    skipWs (' ' :: ('{' :: X)) = '{' :: X := rfl

/-- A `": "`-prefixed string value inside an object. -/
theorem parseValCore_space_string (f : Nat) (s : String) (tail : List Char) :
    parseValCore (f + 1) (skipWs (' ' :: ('"' :: (escString s.data ++ ('"' :: tail))))) =
      some (.str s, tail) := by
  have h0 : parseValCore (f + 1) (skipWs (' ' :: ('"' :: (escString s.data ++ ('"' :: tail))))) =
      (parseStrBody (escString s.data ++ ('"' :: tail))).map
        (fun p => (Json.str (String.mk p.1), p.2)) := rfl
  rw [h0, parseStrBody_escString]
  rfl

/-- One step of `JSONObject`: consume `"key": ` and hand over to the value
scanner. -/
theorem parseMembers_keyval0 (f : Nat) (kd Y : List Char)
    (acc : List (String × Json)) :
    parseMembers (f + 1) ('"' :: (escString kd ++ ('"' :: ':' :: Y))) acc =
      (match parseValCore f (skipWs Y) with
       | none => none
       | some (v1, rest3) =>
         match skipWs rest3 with
         | [] => none
         | c2 :: rest4 =>
           if c2 = ',' then
             parseMembers f (skipWs rest4) (dictInsert acc (String.mk kd) v1)
           else if c2 = '}' then
             some (.obj (dictInsert acc (String.mk kd) v1), rest4)
           else none) := by
  have h0 : parseMembers (f + 1) ('"' :: (escString kd ++ ('"' :: ':' :: Y))) acc =
      (match parseStrBody (escString kd ++ ('"' :: ':' :: Y)) with
       | none => none
       | some (kcs, rest1) =>
         match skipWs rest1 with
         | [] => none
         | c1 :: rest2 =>
           if c1 = ':' then
             match parseValCore f (skipWs rest2) with
             | none => none
             | some (v1, rest3) =>
               match skipWs rest3 with
               | [] => none
               | c2 :: rest4 =>
                 if c2 = ',' then
                   parseMembers f (skipWs rest4) (dictInsert acc (String.mk kcs) v1)
                 else if c2 = '}' then
                   some (.obj (dictInsert acc (String.mk kcs) v1), rest4)
                 else none
           else none) := rfl
  rw [h0, parseStrBody_escString]
  rfl

/-- A member whose value is followed by a comma, a newline, the indent and
another member: insert and continue. -/
theorem parseMembers_member_comma (f n : Nat) (kd : List Char) (Y W : List Char)
    (v1 : Json) (acc : List (String × Json))
    (hv : parseValCore f (skipWs Y) =
      some (v1, ',' :: ('\n' :: (spaces n ++ ('"' :: W))))) :
    parseMembers (f + 1) ('"' :: (escString kd ++ ('"' :: ':' :: Y))) acc =
      parseMembers f ('"' :: W) (dictInsert acc (String.mk kd) v1) := by
  rw [parseMembers_keyval0, hv]
  show parseMembers f (skipWs ('\n' :: (spaces n ++ ('"' :: W))))
      (dictInsert acc (String.mk kd) v1) = _
  rw [skipWs_indent, skipWs_quote]

/-- The last member: its value is followed by a newline, the indent and the
closing brace; insert and close the object. -/
theorem parseMembers_member_close (f n : Nat) (kd : List Char) (Y : List Char)
    (v1 : Json) (rest : List Char) (acc : List (String × Json))
    (hv : parseValCore f (skipWs Y) =
      some (v1, '\n' :: (spaces n ++ ('}' :: rest)))) :
    parseMembers (f + 1) ('"' :: (escString kd ++ ('"' :: ':' :: Y))) acc =
      some (.obj (dictInsert acc (String.mk kd) v1), rest) := by
  rw [parseMembers_keyval0, hv]
  show (match skipWs (spaces n ++ ('}' :: rest)) with
        | [] => none
        | c2 :: rest4 =>
          if c2 = ',' then
            parseMembers f (skipWs rest4) (dictInsert acc (String.mk kd) v1)
          else if c2 = '}' then
            some (.obj (dictInsert acc (String.mk kd) v1), rest4)
          else none) = _
  rw [skipWs_spaces, skipWs_rbrace]
  rfl

/-- An opening brace followed by an indented first member hands over to the
member loop. -/
theorem parseValCore_obj_member (f n : Nat) (Y : List Char) :
    parseValCore (f + 1) ('{' :: ('\n' :: (spaces n ++ ('"' :: Y)))) =
      parseMembers f ('"' :: Y) [] := by
  show (match skipWs ('\n' :: (spaces n ++ ('"' :: Y))) with
        | [] => (none : Option (Json × List Char))
        | c2 :: rest2 =>
          if c2 = '}' then some (Json.obj [], rest2)
          else parseMembers f (c2 :: rest2) []) = _
  rw [skipWs_indent, skipWs_quote]
  rfl

/-- A serialized record value (with its `": "` prefix) parses to the
record. -/
theorem parseValCore_record (f : Nat) (r : UserRecord) (lvl : Nat)
    (rest : List Char) :
    parseValCore (f + 4) (skipWs (' ' :: (serJson (recJson r) lvl ++ rest))) =
      some (recJson r, rest) := by
  obtain ⟨ph, ca⟩ := r
  rw [show recJson ⟨ph, ca⟩ =
    Json.obj [("password_hash", .str ph), ("created_at", .str ca)] from rfl]
  rw [serJson_obj_cons, serObjItems_cons, serObjItems_nil, serMember_eq,
    serMember_eq, serJson_str, serJson_str]
  simp only [List.cons_append, List.append_assoc, List.append_nil,
    List.nil_append]
  rw [skipWs_sp_lbrace]
  rw [show f + 4 = (f + 3) + 1 from rfl, parseValCore_obj_member]
  have hv1 : parseValCore (f + 2) (skipWs (' ' :: '"' :: (escString ph.data ++
      '"' :: ',' :: '\n' :: (spaces (2 * (lvl + 1)) ++
      '"' :: (escString "created_at".data ++ '"' :: ':' :: ' ' ::
      '"' :: (escString ca.data ++ '"' :: '\n' :: (spaces (2 * lvl) ++
      '}' :: rest))))))) =
      some (.str ph, ',' :: ('\n' :: (spaces (2 * (lvl + 1)) ++
        ('"' :: (escString "created_at".data ++ '"' :: ':' :: ' ' ::
        '"' :: (escString ca.data ++ '"' :: '\n' :: (spaces (2 * lvl) ++
        '}' :: rest))))))) :=
    parseValCore_space_string (f + 1) ph _
  rw [show f + 3 = (f + 2) + 1 from rfl,
    parseMembers_member_comma _ _ _ _ _ _ _ hv1]
  have hv2 : parseValCore (f + 1) (skipWs (' ' :: '"' :: (escString ca.data ++
      '"' :: '\n' :: (spaces (2 * lvl) ++ '}' :: rest)))) =
      some (.str ca, '\n' :: (spaces (2 * lvl) ++ ('}' :: rest))) :=
    parseValCore_space_string f ca _
  rw [show f + 2 = (f + 1) + 1 from rfl,
    parseMembers_member_close _ _ _ _ _ _ _ hv2]
  rfl

/-- The member list of a serialized user table parses back member by
member, accumulating dict insertions. -/
theorem parseMembers_table (t : List (String × UserRecord)) :
    ∀ (f lvl : Nat) (k : String) (r : UserRecord) (acc : List (String × Json))
      (rest : List Char),
    parseMembers (f + t.length + 5)
      ('"' :: (escString k.data ++ ('"' :: ':' :: (' ' ::
        (serJson (recJson r) (lvl + 1) ++
          (serObjItems (tableJson t) (lvl + 1) ++
            ('\n' :: (spaces (2 * lvl) ++ ('}' :: rest))))))))) acc =
      some (.obj (((k, recJson r) :: tableJson t).foldl
        (fun d kv => dictInsert d kv.1 kv.2) acc), rest) := by
  induction t with
  | nil =>
    intro f lvl k r acc rest
    exact parseMembers_member_close (f + 4) (2 * lvl) k.data _ (recJson r) rest acc
      (parseValCore_record f r (lvl + 1) ('\n' :: (spaces (2 * lvl) ++ ('}' :: rest))))
  | cons hd tl ih =>
    intro f lvl k r acc rest
    obtain ⟨k2, r2⟩ := hd
    rw [show tableJson ((k2, r2) :: tl) = (k2, recJson r2) :: tableJson tl from rfl,
      serObjItems_cons, serMember_eq]
    simp only [List.cons_append, List.append_assoc, List.append_nil, List.nil_append]
    rw [show f + ((k2, r2) :: tl).length + 5 = (f + tl.length + 5) + 1 from rfl]
    have hv : parseValCore (f + tl.length + 5) (skipWs (' ' ::
        (serJson (recJson r) (lvl + 1) ++ ',' :: '\n' :: (spaces (2 * (lvl + 1)) ++
          '"' :: (escString k2.data ++ '"' :: ':' :: ' ' ::
            (serJson (recJson r2) (lvl + 1) ++ (serObjItems (tableJson tl) (lvl + 1) ++
              '\n' :: (spaces (2 * lvl) ++ '}' :: rest)))))))) =
        some (recJson r, ',' :: ('\n' :: (spaces (2 * (lvl + 1)) ++
          ('"' :: (escString k2.data ++ '"' :: ':' :: ' ' ::
            (serJson (recJson r2) (lvl + 1) ++ (serObjItems (tableJson tl) (lvl + 1) ++
              '\n' :: (spaces (2 * lvl) ++ '}' :: rest)))))))) :=
      parseValCore_record (f + tl.length + 1) r (lvl + 1) _
    rw [parseMembers_member_comma _ _ _ _ _ _ _ hv]
    exact ih f lvl k2 r2 (dictInsert acc (String.mk k.data) (recJson r)) rest

theorem parseVal_succ (g : Nat) (cs : List Char) :
    parseVal (g + 1) cs = parseValCore (g + 1) (skipWs cs) := rfl

theorem serObjItems_length (l : List (String × Json)) (lvl : Nat) :
    l.length ≤ (serObjItems l lvl).length := by
  induction l with
  | nil => simp [serObjItems_nil]
  | cons kv kvs ih =>
    rw [serObjItems_cons]
    simp only [List.length_cons, List.length_append]
    omega

theorem serMember_length_pos (kv : String × Json) (lvl : Nat) :
    1 ≤ (serMember kv lvl).length := by
  obtain ⟨k, v⟩ := kv
  rw [serMember_eq]
  simp

theorem serJson_table_length (kv : String × Json) (kvs : List (String × Json))
    (lvl : Nat) :
    kvs.length + 5 ≤ (serJson (.obj (kv :: kvs)) lvl).length := by
  rw [serJson_obj_cons]
  have h1 := serObjItems_length kvs (lvl + 1)
  have h2 := serMember_length_pos kv (lvl + 1)
  simp only [List.length_cons, List.length_append]
  simp at h2 ⊢
  omega

theorem keys_append (a b : List (String × Json)) :
    keys (a ++ b) = keys a ++ keys b := by
  simp [keys]

theorem dictInsert_not_mem (kvs : List (String × Json)) (k : String) (v : Json)
    (h : k ∉ keys kvs) : dictInsert kvs k v = kvs ++ [(k, v)] := by
  simp [dictInsert, h]

theorem foldl_dictInsert_of_nodup (l : List (String × Json)) :
    ∀ acc : List (String × Json), (keys (acc ++ l)).Nodup →
    l.foldl (fun d kv => dictInsert d kv.1 kv.2) acc = acc ++ l := by
  induction l with
  | nil => intro acc h; simp
  | cons kv l ih =>
    intro acc h
    have hmem : kv.1 ∉ keys acc := by
      rw [keys_append] at h
      rw [List.nodup_append] at h
      intro hk
      exact (h.2.2 hk) (show kv.1 ∈ keys (kv :: l) by simp [keys])
    rw [List.foldl_cons]
    rw [show dictInsert acc kv.1 kv.2 = acc ++ [kv] from by
      rw [dictInsert_not_mem acc kv.1 kv.2 hmem]]
    rw [ih (acc ++ [kv]) (by rwa [List.append_assoc])]
    rw [List.append_assoc]
    rfl

theorem keys_tableJson (t : List (String × UserRecord)) :
    keys (tableJson t) = t.map Prod.fst := by
  induction t with
  | nil => rfl
  | cons hd tl ih =>
    show hd.1 :: keys (tableJson tl) = hd.1 :: tl.map Prod.fst
    rw [ih]

/-- The full round trip at the text level: the dump of a user table parses
back to exactly that table. -/
theorem parseJson_dump_table (t : List (String × UserRecord))
    (ht : (t.map Prod.fst).Nodup) :
    parseJson (dumpJson (.obj (tableJson t))) = some (.obj (tableJson t)) := by
  cases t with
  | nil => rfl
  | cons hd tl =>
    obtain ⟨k, r⟩ := hd
    have hfold : List.foldl (fun d kv => dictInsert d kv.1 kv.2) []
        ((k, recJson r) :: tableJson tl) = (k, recJson r) :: tableJson tl := by
      have h2 : (keys ([] ++ (k, recJson r) :: tableJson tl)).Nodup := by
        rw [List.nil_append]
        show (keys (tableJson ((k, r) :: tl))).Nodup
        rw [keys_tableJson]
        exact ht
      have := foldl_dictInsert_of_nodup ((k, recJson r) :: tableJson tl) [] h2
      simpa using this
    have hlen : tl.length + 5 ≤
        (serJson (.obj (tableJson ((k, r) :: tl))) 0).length := by
      have h := serJson_table_length (k, recJson r) (tableJson tl) 0
      have h2 : (tableJson tl).length = tl.length := by simp [tableJson]
      rw [show tableJson ((k, r) :: tl) = (k, recJson r) :: tableJson tl from rfl]
      omega
    obtain ⟨f0, hf0⟩ : ∃ f0, (serJson (.obj (tableJson ((k, r) :: tl))) 0).length =
        f0 + tl.length + 5 :=
      ⟨(serJson (.obj (tableJson ((k, r) :: tl))) 0).length - (tl.length + 5),
        by omega⟩
    show (match parseVal ((serJson (.obj (tableJson ((k, r) :: tl))) 0).length + 1)
            (serJson (.obj (tableJson ((k, r) :: tl))) 0) with
          | none => (none : Option Json)
          | some (j, rest) => if skipWs rest = [] then some j else none) = _
    rw [hf0, parseVal_succ]
    rw [show tableJson ((k, r) :: tl) = (k, recJson r) :: tableJson tl from rfl]
    rw [serJson_obj_cons, serMember_eq]
    simp only [List.cons_append, List.append_assoc, List.append_nil,
      List.nil_append]
    rw [skipWs_lbrace, parseValCore_obj_member]
    rw [parseMembers_table tl f0 0 k r [] []]
    rw [hfold]
    rfl


/-- Insertion `users[email] = record` on a clean table extends it at the end. -/
theorem dictInsert_tableJson (t : List (String × UserRecord)) (k : String)
    (r : UserRecord) (h : k ∉ t.map Prod.fst) :
    dictInsert (tableJson t) k (recJson r) = tableJson (t ++ [(k, r)]) := by
  rw [dictInsert_not_mem _ _ _ (by rw [keys_tableJson]; exact h)]
  simp [tableJson]

/-- Loading right after saving a table recovers it (shared helper). -/
theorem load_users_save_users (t : List (String × UserRecord)) (fs : FS)
    (ht : (t.map Prod.fst).Nodup) :
    load_users (save_users (tableJson t) fs) =
      (tableJson t, save_users (tableJson t) fs) := by
  obtain ⟨uf, cf⟩ := fs
  show load_users ⟨some (dumpJson (.obj (tableJson t))), cf⟩ = _
  rw [load_users_of_file, parseJson_dump_table t ht]
  rfl

/-- C2: `save_users` followed by `load_users` returns the saved table
field-for-field, for every table of string-valued records (all Lean strings
are valid Unicode; keys are unique as in any Python dict), and leaves the
filesystem exactly as the save wrote it. -/
theorem c2_save_load_roundtrip (t : List (String × UserRecord)) (fs : FS)
    (ht : (t.map Prod.fst).Nodup) :
    load_users (save_users (tableJson t) fs) =
      (tableJson t, save_users (tableJson t) fs) :=
  load_users_save_users t fs ht

theorem c2_save_load_roundtrip_witness :
    load_users (save_users (tableJson [("a@b.com", ⟨"h1", "t1"⟩)]) ⟨none, none⟩) =
      (tableJson [("a@b.com", ⟨"h1", "t1"⟩)],
        save_users (tableJson [("a@b.com", ⟨"h1", "t1"⟩)]) ⟨none, none⟩) :=
  c2_save_load_roundtrip [("a@b.com", ⟨"h1", "t1"⟩)] ⟨none, none⟩ (by decide)

/-- C3: an unparseable backing file is renamed to the `.corrupt` name and
an empty table returned; a subsequent register on that store succeeds with
201 and writes a fresh file that parses as a valid JSON object again. -/
theorem c3_corrupt_quarantine (fs : FS) (s e p now salt : String)
    (hfile : fs.usersFile = some s) (hbad : parseJson s = none)
    (hv : is_valid_email (.str (normalizeEmail e)) = true)
    (hp : is_valid_password (.str p) = true) :
    load_users fs = ([], ⟨none, some s⟩) ∧
    register (mkBody e p) now salt fs =
      .ok ⟨⟨201, mkMsg "Account created successfully"⟩,
        ⟨some (dumpJson (.obj (tableJson [(normalizeEmail e,
          ⟨generate_password_hash salt p, now ++ "Z"⟩)]))), some s⟩,
        [tableJson [(normalizeEmail e,
          ⟨generate_password_hash salt p, now ++ "Z"⟩)]]⟩ ∧
    parseJson (dumpJson (.obj (tableJson [(normalizeEmail e,
        ⟨generate_password_hash salt p, now ++ "Z"⟩)]))) =
      some (.obj (tableJson [(normalizeEmail e,
        ⟨generate_password_hash salt p, now ++ "Z"⟩)])) := by
  obtain ⟨uf, cf⟩ := fs
  have huf : uf = some s := hfile
  subst huf
  have hload : load_users ⟨some s, cf⟩ = ([], ⟨none, some s⟩) := by
    rw [load_users_of_file, hbad]
  refine ⟨hload, ?_, parseJson_dump_table _ (by simp)⟩
  rw [register_mkBody]
  unfold registerValidated
  rw [if_neg (by simp [hv, hp]), hload]
  rw [if_neg (by simp [keys])]
  rfl

theorem c3_corrupt_quarantine_witness :
    load_users ⟨some "not json", none⟩ = ([], ⟨none, some "not json"⟩) ∧
    register (mkBody "a@b.com" "secret1") "t" "ss" ⟨some "not json", none⟩ =
      .ok ⟨⟨201, mkMsg "Account created successfully"⟩,
        ⟨some (dumpJson (.obj (tableJson [(normalizeEmail "a@b.com",
          ⟨generate_password_hash "ss" "secret1", "t" ++ "Z"⟩)]))), some "not json"⟩,
        [tableJson [(normalizeEmail "a@b.com",
          ⟨generate_password_hash "ss" "secret1", "t" ++ "Z"⟩)]]⟩ ∧
    parseJson (dumpJson (.obj (tableJson [(normalizeEmail "a@b.com",
        ⟨generate_password_hash "ss" "secret1", "t" ++ "Z"⟩)]))) =
      some (.obj (tableJson [(normalizeEmail "a@b.com",
        ⟨generate_password_hash "ss" "secret1", "t" ++ "Z"⟩)])) :=
  c3_corrupt_quarantine ⟨some "not json", none⟩ "not json" "a@b.com" "secret1"
    "t" "ss" rfl rfl (by decide) (by decide)

/-- The status code of a `register` outcome (0 for an uncaught exception). -/
def regStatus (r : Except PyError RegisterOutcome) : Nat :=
  match r with
  | .ok o => o.resp.status
  | .error _ => 0

/-- The store left behind by the first registration of the C1 scenario. -/
def c1FirstFS : FS :=
  match register (mkBody "a@b.com" "secret1") "t" "ss" ⟨none, none⟩ with
  | .ok o => o.fs
  | .error _ => ⟨none, none⟩

/-- C1 as stated is false: after `Register("a@b.com","secret1")` answers
201, a second register whose email normalizes to the same key but whose
password is invalid (`"x"`, shorter than 6) answers 400 — not 409 — because
credential validation runs before the duplicate check. -/
theorem c1_counterexample :
    normalizeEmail "A@B.com " = normalizeEmail "a@b.com" ∧
    regStatus (register (mkBody "a@b.com" "secret1") "t" "ss" ⟨none, none⟩) = 201 ∧
    regStatus (register (mkBody "A@B.com " "x") "t" "ss" c1FirstFS) = 400 ∧
    regStatus (register (mkBody "A@B.com " "x") "t" "ss" c1FirstFS) ≠ 409 :=
  ⟨rfl, rfl, rfl, by decide⟩

/-- C1 amended: on a store whose table loads cleanly, registering an unused
valid email with a valid password answers 201, and a second register whose
email normalizes to the same key answers 409 for any second password that
passes validation (length at least 6). -/
theorem c1_register_then_duplicate (e e2 p p2 now now2 salt salt2 : String)
    (t : List (String × UserRecord)) (fs : FS)
    (hload : load_users fs = (tableJson t, fs))
    (ht : (t.map Prod.fst).Nodup)
    (hv : is_valid_email (.str (normalizeEmail e)) = true)
    (hp : is_valid_password (.str p) = true)
    (hp2 : is_valid_password (.str p2) = true)
    (habsent : normalizeEmail e ∉ t.map Prod.fst)
    (hsame : normalizeEmail e2 = normalizeEmail e) :
    ∃ fs1 : FS,
      register (mkBody e p) now salt fs =
        .ok ⟨⟨201, mkMsg "Account created successfully"⟩, fs1,
          [tableJson (t ++ [(normalizeEmail e,
            ⟨generate_password_hash salt p, now ++ "Z"⟩)])]⟩ ∧
      register (mkBody e2 p2) now2 salt2 fs1 =
        .ok ⟨⟨409, mkMsg "Email already exists"⟩, fs1, []⟩ := by
  have hdi : dictInsert (tableJson t) (normalizeEmail e)
      (recJson ⟨generate_password_hash salt p, now ++ "Z"⟩) =
      tableJson (t ++ [(normalizeEmail e,
        ⟨generate_password_hash salt p, now ++ "Z"⟩)]) :=
    dictInsert_tableJson t _ _ habsent
  have ht2 : ((t ++ [(normalizeEmail e,
      (⟨generate_password_hash salt p, now ++ "Z"⟩ : UserRecord))]).map
        Prod.fst).Nodup := by
    rw [List.map_append]
    refine List.nodup_append.mpr ⟨ht, List.nodup_singleton _, ?_⟩
    intro a ha hb
    simp at hb
    subst hb
    exact habsent ha
  have hrt := load_users_save_users
    (t ++ [(normalizeEmail e, ⟨generate_password_hash salt p, now ++ "Z"⟩)]) fs ht2
  refine ⟨save_users (tableJson (t ++ [(normalizeEmail e,
    ⟨generate_password_hash salt p, now ++ "Z"⟩)])) fs, ?_, ?_⟩
  · rw [← hdi, register_mkBody]
    unfold registerValidated
    rw [if_neg (by simp [hv, hp]), hload]
    rw [if_neg (by simpa [keys_tableJson] using habsent)]
    rfl
  · rw [register_mkBody]
    unfold registerValidated
    rw [if_neg (by simp [hsame, hv, hp2]), hrt]
    rw [if_pos (by simp [keys_tableJson, hsame, List.map_append])]

theorem c1_register_then_duplicate_witness :
    ∃ fs1 : FS,
      register (mkBody "a@b.com" "secret1") "t" "ss" ⟨some "\x7b\x7d", none⟩ =
        .ok ⟨⟨201, mkMsg "Account created successfully"⟩, fs1,
          [tableJson ([] ++ [(normalizeEmail "a@b.com",
            ⟨generate_password_hash "ss" "secret1", "t" ++ "Z"⟩)])]⟩ ∧
      register (mkBody "A@B.com " "secret2") "t2" "s2" fs1 =
        .ok ⟨⟨409, mkMsg "Email already exists"⟩, fs1, []⟩ :=
  c1_register_then_duplicate "a@b.com" "A@B.com " "secret1" "secret2"
    "t" "t2" "ss" "s2" [] ⟨some "\x7b\x7d", none⟩ rfl (by decide) (by decide)
    (by decide) (by decide) (by decide) (by decide)

end StudyTracker
